import Mathlib

/-!
Verification of the Aadhaar location-resolution and redaction core.

Shallow embedding of the identifier extraction, location resolution,
mask formatting and redaction-pipeline routing logic of the repository
(`src/ocr_detector.py`, `src/image_masker.py`, `api.py`).

Modelling conventions:

* Python strings are `List Char`; `re.sub(r'\D', '', t)` is
  `t.filter Char.isDigit`; `s in t` (substring) is `substrIn`.
* OCR text fragments (EasyOCR results) are `Frag`: recognised text,
  a confidence (a rational, standing for the float score), and a
  quadrilateral polygon with integer pixel coordinates (EasyOCR returns
  integer corner coordinates; `int(...)` conversions are then the
  identity).
* `0.5`, `0.299`, `0.587`, `0.114` and midpoint divisions are modelled
  exactly in `ℚ`.
* Regular-expression matching over the cleaned text is modelled through
  the list of maximal digit runs of the text.  After the cleaning step
  `re.sub(r'[^\d\s]', ' ', text)` every character is a digit or
  whitespace, so the word characters are exactly the digits, `\b` holds
  exactly at the start and end of a maximal digit run, and the three
  patterns of `extract_aadhaar_number` depend only on the sequence of
  digit runs; this is spelled out at the individual definitions.
-/

/-- Python `str.isspace`-style whitespace set relevant to `\s`
(ASCII range, which is all the OCR pipeline produces). -/
def pySpace (c : Char) : Bool :=
  c = ' ' || c = '\t' || c = '\n' || c = '\r' || c = '\x0b' || c = '\x0c'

/-- Python `pat in s` contiguous-substring test for strings. -/
def substrIn (pat s : List Char) : Bool :=
  s.tails.any (fun t => pat.isPrefixOf t)

/-- `runsAux l cur` accumulates the current digit run `cur` (reversed)
while scanning `l`; returns the list of maximal digit runs. -/
def runsAux : List Char → List Char → List (List Char)
  | [], cur => if cur.isEmpty then [] else [cur.reverse]
  | c :: cs, cur =>
    if c.isDigit then runsAux cs (c :: cur)
    else if cur.isEmpty then runsAux cs [] else cur.reverse :: runsAux cs []

/-- The maximal runs of consecutive digit characters of a string, in
textual order.  On the cleaned text these determine all three regex
patterns of `extract_aadhaar_number`. -/
def digitRuns (l : List Char) : List (List Char) :=
  runsAux l []

/-- `ocr_detector.extract_aadhaar_number`, cleaning step:
`re.sub(r'[^\d\s]', ' ', ocr_text)` — every character that is neither a
digit nor whitespace is replaced by a space. -/
def cleanedReplace (s : List Char) : List Char :=
  s.map (fun c => if c.isDigit || pySpace c then c else ' ')

/-- All matches of pattern 1, `r'\b\d{12}\b'`, on a digits/whitespace
text: exactly the maximal digit runs of length 12 (a longer run has no
interior word boundary, a shorter one no 12 digits). -/
def pat1Matches (rs : List (List Char)) : List (List Char) :=
  rs.filter (fun r => r.length == 12)

/-- The matches of pattern 2, `r'\b\d{4}\s+\d{4}\s+\d{4}\b'`, on a
digits/whitespace text: three consecutive maximal digit runs of length
exactly 4 (`\d{4}` bounded by `\s+`/`\b` forces each run to be exactly
4 long, and `\s+` cannot skip over an intervening run).  Matches are
listed for every starting run; Python's `findall` keeps only the
non-overlapping ones, but every candidate here has exactly 12 digits,
so the subsequent first-valid scan picks the same (first) element.
The whitespace inside a match is dropped here because the caller
immediately strips non-digits. -/
def pat2Matches : List (List Char) → List (List Char)
  | a :: b :: c :: rest =>
    (if a.length = 4 ∧ b.length = 4 ∧ c.length = 4 then [a ++ b ++ c] else []) ++
      pat2Matches (b :: c :: rest)
  | _ => []

/-- Matching engine for pattern 3, `r'\b(?:\d{4}[\s]*){3}\b'`, from a
run boundary: the twelve digits are consumed in `\d{4}` chunks, a run
can only be exited at a chunk boundary and must then be exhausted, and
the final `\b` forces the twelfth digit to end a run; hence the match
consumes whole consecutive runs whose lengths are positive multiples
of 4 summing to exactly `need`. -/
def win12 : List (List Char) → Nat → Option (List Char)
  | _, 0 => some []
  | [], _ + 1 => none
  | r :: rest, n + 1 =>
    if r.length % 4 = 0 ∧ 0 < r.length ∧ r.length ≤ n + 1 then
      (win12 rest (n + 1 - r.length)).map (fun t => r ++ t)
    else none

/-- The matches of pattern 3 on a digits/whitespace text, one attempt
per starting run (the only positions carrying a word boundary). -/
def pat3Matches : List (List Char) → List (List Char)
  | [] => []
  | r :: rest =>
    (match win12 (r :: rest) 12 with
     | some d => [d]
     | none => []) ++ pat3Matches rest

/-- `f"{d[:4]} {d[4:8]} {d[8:12]}"` — canonical spacing of a 12-digit
string. -/
def format12 (d : List Char) : List Char :=
  d.take 4 ++ ' ' :: ((d.drop 4).take 4 ++ ' ' :: (d.drop 8).take 4)

/-- The inner loop of `extract_aadhaar_number` for one pattern: strip
non-digits from each match in textual order and return the first whose
digit-only length is exactly 12. -/
def firstValid (ms : List (List Char)) : Option (List Char) :=
  (ms.map (fun m => m.filter Char.isDigit)).find? (fun d => d.length == 12)

/-- `ocr_detector.extract_aadhaar_number` (lines 115–154): clean the
text by replacing every non-digit non-whitespace character with a
space, then try pattern 1, then pattern 2, then pattern 3, returning
the first match with exactly 12 digits, formatted as
`"dddd dddd dddd"`; `None` when nothing matches. -/
def extract_aadhaar_number (s : List Char) : Option (List Char) :=
  let rs := digitRuns (cleanedReplace s)
  match firstValid (pat1Matches rs) with
  | some d => some (format12 d)
  | none =>
    match firstValid (pat2Matches rs) with
    | some d => some (format12 d)
    | none => (firstValid (pat3Matches rs)).map format12

/-! ## Specification-side formulation of the extractor

The claim describes the extractor declaratively: clean the raw text,
then accept the first match in pattern order (1), (2), (3) whose
digit-only length is exactly 12.  `specWin` and the `tails`-based
pattern lists restate the pattern semantics independently of the
recursions above; `cleanedStrip` is the cleaning step as worded by the
claim (*stripping* all non-digit, non-whitespace characters). -/

/-- Cleaning as the claim words it: delete (strip) every character
that is neither a digit nor whitespace. -/
def cleanedStrip (s : List Char) : List Char :=
  s.filter (fun c => c.isDigit || pySpace c)

/-- Pattern 2 viewed declaratively: a window of three consecutive runs,
each of length exactly 4. -/
def specPat2 (rs : List (List Char)) : List (List Char) :=
  rs.tails.filterMap (fun ls =>
    match ls with
    | a :: b :: c :: _ =>
      if a.length = 4 ∧ b.length = 4 ∧ c.length = 4 then some (a ++ b ++ c) else none
    | _ => none)

/-- Pattern 3 viewed declaratively: from a run boundary, three 4-digit
groups with zero-or-more spaces between them cover whole runs of
lengths `12`, `4+8`, `8+4` or `4+4+4`. -/
def specWin (ls : List (List Char)) : Option (List Char) :=
  match ls with
  | [] => none
  | a :: rest =>
    if a.length = 12 then some a
    else
      match rest with
      | [] => none
      | b :: rest2 =>
        if a.length = 4 ∧ b.length = 8 then some (a ++ b)
        else if a.length = 8 ∧ b.length = 4 then some (a ++ b)
        else
          match rest2 with
          | [] => none
          | c :: _ =>
            if a.length = 4 ∧ b.length = 4 ∧ c.length = 4 then some (a ++ b ++ c)
            else none

/-- Pattern 3 match attempts at every suffix of the run list. -/
def specPat3 (rs : List (List Char)) : List (List Char) :=
  rs.tails.filterMap specWin

/-- The claim's acceptance rule: all candidates in pattern order
(1), (2), (3), each stripped to its digits, and the first with exactly
12 digits wins. -/
def specFirstCandidate (rs : List (List Char)) : Option (List Char) :=
  ((pat1Matches rs ++ specPat2 rs ++ specPat3 rs).map
      (fun m => m.filter Char.isDigit)).find? (fun d => d.length == 12)

/-- The claim's extractor pipeline over an already-cleaned text. -/
def extractSpecOn (cleaned : List Char) : Option (List Char) :=
  (specFirstCandidate (digitRuns cleaned)).map format12

/-- The extractor exactly as claim C3 states it, with the cleaning step
*deleting* non-digit non-whitespace characters. -/
def extractClaimC3 (s : List Char) : Option (List Char) :=
  extractSpecOn (cleanedStrip s)

/-- The amended extractor description: identical to the claim except
that cleaning *replaces* each non-digit non-whitespace character with a
space. -/
def extractSpecReplace (s : List Char) : Option (List Char) :=
  extractSpecOn (cleanedReplace s)

/-! ## Data model of OCR fragments and bounding boxes -/

/-- One EasyOCR result `(bbox, text, conf)`: recognised text, a
confidence score and the bounding polygon (pixel coordinates). -/
structure Frag where
  text : List Char
  conf : ℚ
  poly : List (ℤ × ℤ)
deriving DecidableEq

/-- An axis-aligned bounding box `(x, y, width, height)`. -/
structure Box where
  x : ℤ
  y : ℤ
  w : ℤ
  h : ℤ
deriving DecidableEq

/-- `re.sub(r'\D', '', text)` of a fragment's text. -/
def digitsOf (f : Frag) : List Char :=
  f.text.filter Char.isDigit

/-- The x coordinates of a polygon's points. -/
def polyXs (p : List (ℤ × ℤ)) : List ℤ :=
  p.map Prod.fst

/-- The y coordinates of a polygon's points. -/
def polyYs (p : List (ℤ × ℤ)) : List ℤ :=
  p.map Prod.snd

/-- Python `min` over a list (polygons always have four points, the
empty case is an unused default). -/
def listMin : List ℤ → ℤ
  | [] => 0
  | a :: t => t.foldl min a

/-- Python `max` over a list. -/
def listMax : List ℤ → ℤ
  | [] => 0
  | a :: t => t.foldl max a

/-- Twice the vertical center `(min(y_coords) + max(y_coords)) / 2` of
a polygon.  The code only ever compares two centers (`abs(c1 - c2) <
50`), and both centers are halves of integers, so working with the
doubled values and the doubled tolerance is exact. -/
def yCenter2 (p : List (ℤ × ℤ)) : ℤ :=
  listMin (polyYs p) + listMax (polyYs p)

/-- Single-fragment bounding box: min/max of the polygon coordinates,
as `(x, y, width, height)`. -/
def fragBox (f : Frag) : Box :=
  { x := listMin (polyXs f.poly)
    y := listMin (polyYs f.poly)
    w := listMax (polyXs f.poly) - listMin (polyXs f.poly)
    h := listMax (polyYs f.poly) - listMin (polyYs f.poly) }

/-- Union bounding box over the polygons of a group of fragments
(ocr_detector lines 249–266). -/
def unionBox (g : List Frag) : Box :=
  let axs := (g.map (fun f => polyXs f.poly)).flatten
  let ays := (g.map (fun f => polyYs f.poly)).flatten
  { x := listMin axs
    y := listMin ays
    w := listMax axs - listMin axs
    h := listMax ays - listMin ays }

/-- Python `enumerate` beginning at `n`. -/
def enumFrom : Nat → List Frag → List (Nat × Frag)
  | _, [] => []
  | n, f :: fs => (n, f) :: enumFrom (n + 1) fs

/-! ## Location resolver
(`ocr_detector.detect_aadhaar_number_with_all_locations`, lines 197–303)

The function first extracts the identifier from the joined
above-threshold texts, then scans the fragment list twice:

* *Method 1* (lines 216–267): for every above-threshold fragment whose
  digit-only text has exactly 4 digits occurring inside the target
  digits, gather all other such fragments whose vertical center is
  within 50 pixels; when exactly three fragments result and their
  concatenated digits equal the target, emit their union bounding box.
* *Method 2* (lines 269–292): every above-threshold fragment whose
  digit-only text contains the target and has at least 12 digits
  contributes its own bounding box, unless its top-left corner is
  within 50 pixels (in both coordinates) of an already collected box.
-/

/-- Start/member condition of Method 1: confidence above `0.5`, digit
text of length exactly 4 occurring inside the target digits. -/
def groupCandidate (target : List Char) (f : Frag) : Bool :=
  decide (Rat.divInt 1 2 < f.conf) && (digitsOf f).length == 4 && substrIn (digitsOf f) target

/-- `abs(y1_center - y2_center) < 50` — same-text-line test, stated
exactly over the doubled centers. -/
def sameLineB (p q : List (ℤ × ℤ)) : Bool :=
  (yCenter2 p - yCenter2 q).natAbs < 100

/-- The group gathered for start fragment `fi` at index `i`: `fi`
followed by every *other* fragment (in list order) that is a group
candidate on the same line as `fi`. -/
def groupFor (results : List Frag) (target : List Char) (i : Nat) (fi : Frag) : List Frag :=
  fi :: ((enumFrom 0 results).filter (fun jf =>
      jf.1 != i && groupCandidate target jf.2 && sameLineB fi.poly jf.2.poly)).map Prod.snd

/-- Method 1: one union box per start fragment whose gathered group has
exactly three members concatenating to the target digits. -/
def method1 (results : List Frag) (target : List Char) : List Box :=
  (enumFrom 0 results).filterMap (fun p =>
    if groupCandidate target p.2 then
      let group := groupFor results target p.1 p.2
      if group.length == 3 && ((group.map digitsOf).flatten == target) then
        some (unionBox group)
      else none
    else none)

/-- Method 2 per-fragment condition: confidence above `0.5`, target
digits contained in the fragment's digits, at least 12 digits. -/
def singleCandidateB (target : List Char) (f : Frag) : Bool :=
  decide (Rat.divInt 1 2 < f.conf) && substrIn target (digitsOf f) &&
    decide (12 ≤ (digitsOf f).length)

/-- Two boxes' top-left corners within the 50-pixel tolerance in both
coordinates (`abs(x - existing_x) < 50 and abs(y - existing_y) < 50`). -/
def within50 (b e : Box) : Prop :=
  (b.x - e.x).natAbs < 50 ∧ (b.y - e.y).natAbs < 50

instance (b e : Box) : Decidable (within50 b e) := by
  unfold within50; infer_instance

/-- The duplicate test of Method 2 against the already collected
locations. -/
def isDup (b : Box) (acc : List Box) : Bool :=
  acc.any (fun e => decide (within50 b e))

/-- Appending one Method-2 box unless it duplicates a collected one. -/
def method2Step (acc : List Box) (b : Box) : List Box :=
  if isDup b acc then acc else acc ++ [b]

/-- The full location list: Method 1 boxes collected first, then the
Method 2 scan folds over the fragments appending non-duplicate single
boxes. -/
def resolveLocations (results : List Frag) (target : List Char) : List Box :=
  results.foldl
    (fun acc f => if singleCandidateB target f then method2Step acc (fragBox f) else acc)
    (method1 results target)

/-- All Method-2 candidate boxes (before deduplication), in fragment
order. -/
def singleCandidates (results : List Frag) (target : List Char) : List Box :=
  (results.filter (singleCandidateB target)).map fragBox

/-- Folding a candidate list into an accumulator with the Method-2
duplicate rule. -/
def dedupAppend (acc cands : List Box) : List Box :=
  cands.foldl method2Step acc

/-- The boxes a dedup fold actually *accepts* (those appended after the
initial accumulator). -/
def dedupAccepted : List Box → List Box → List Box
  | _, [] => []
  | acc, b :: bs =>
    if isDup b acc then dedupAccepted acc bs
    else b :: dedupAccepted (acc ++ [b]) bs

/-- `" ".join(text for ... if conf > 0.5)` — the combined text handed
to the extractor (line 206). -/
def joinTexts (results : List Frag) : List Char :=
  List.intercalate [' ']
    ((results.filter (fun f => decide (Rat.divInt 1 2 < f.conf))).map Frag.text)

/-- `detect_aadhaar_number_with_all_locations` on a fragment list:
extract the identifier from the joined text, then resolve all
locations.  When no location is found the code falls back to
`detect_aadhaar_number`, which re-runs extraction over the same joined
above-threshold texts and therefore returns the same identifier with an
empty location list; the fallback hence collapses to returning the
resolver's (possibly empty) list unchanged. -/
def detectAllLocations (results : List Frag) : Option (List Char × List Box) :=
  match extract_aadhaar_number (joinTexts results) with
  | none => none
  | some n => some (n, resolveLocations results (n.filter (fun c => c != ' ')))

/-! ## Mask formatter, text-location search and pipeline routing
(`image_masker.py`, `api.py`) -/

/-- `image_masker.mask_aadhaar_number` (lines 20–40): reject (raise
`ValueError`, modelled as `none`) when the input is empty or does not
have exactly 12 characters after removing spaces; otherwise replace the
first 8 characters of the de-spaced string with `'X'` and re-insert the
group spacing. -/
def mask_aadhaar_number (s : List Char) : Option (List Char) :=
  if s.isEmpty || (s.filter (fun c => c != ' ')).length != 12 then none
  else
    let d := s.filter (fun c => c != ' ')
    let masked := "XXXXXXXX".toList ++ d.drop 8
    some (masked.take 4 ++ ' ' :: ((masked.drop 4).take 4 ++ ' ' :: (masked.drop 8).take 4))

/-- `0.299 * r + 0.587 * g + 0.114 * b` of a BGR colour triple, exact
in `ℚ`. -/
def luminance (bgr : ℤ × ℤ × ℤ) : ℚ :=
  (299 / 1000 : ℚ) * bgr.2.2 + (587 / 1000 : ℚ) * bgr.2.1 + (114 / 1000 : ℚ) * bgr.1

/-- `image_masker._get_text_color` (lines 394–412): black text on a
background of luminance above 128, white text otherwise.  Colour
triples are BGR, as in the source. -/
def get_text_color (bgr : ℤ × ℤ × ℤ) : ℤ × ℤ × ℤ :=
  if 128 < luminance bgr then (0, 0, 0) else (255, 255, 255)

/-- First loop of `image_masker.find_text_location_in_image` (lines
67–86): confidence not below `0.5`, at least 12 digits, and the target
digits contained in the fragment's digits. -/
def fullMatchB (targetDigits : List Char) (f : Frag) : Bool :=
  !(decide (f.conf < Rat.divInt 1 2)) && decide (12 ≤ (digitsOf f).length) &&
    substrIn targetDigits (digitsOf f)

/-- `any(target_digits[i:i+8] in detected for i in
range(len(target_digits) - 7))` — some 8-consecutive-digit window of
the target occurs in the fragment's digits. -/
def window8B (targetDigits : List Char) (f : Frag) : Bool :=
  (List.range (targetDigits.length - 7)).any
    (fun i => substrIn ((targetDigits.drop i).take 8) (digitsOf f))

/-- Second loop of `find_text_location_in_image` (lines 89–109):
confidence not below `0.5`, at least 8 digits, and some 8-digit window
of the target present. -/
def windowMatchB (targetDigits : List Char) (f : Frag) : Bool :=
  !(decide (f.conf < Rat.divInt 1 2)) && decide (8 ≤ (digitsOf f).length) &&
    window8B targetDigits f

/-- `image_masker.find_text_location_in_image` on a fragment list:
first fragment containing the full target digits, else first fragment
with a partial 8-digit window match, else nothing. -/
def find_text_location (results : List Frag) (targetText : List Char) : Option Box :=
  let td := targetText.filter Char.isDigit
  match results.find? (fullMatchB td) with
  | some f => some (fragBox f)
  | none => (results.find? (windowMatchB td)).map fragBox

/-- How the masking step renders the image: in-place redaction at all
resolver locations, in-place redaction at a re-discovered single box,
or the semi-transparent bottom-banner overlay of `_add_overlay_text`. -/
inductive MaskStrategy where
  | atAllLocations (bs : List Box)
  | inPlaceFound (b : Box)
  | overlay
deriving DecidableEq

/-- `image_masker.replace_text_in_image` (lines 118–184), routing part:
look the text up again in the image's OCR results; redact in place at
the found box, or fall back to the bottom-banner overlay when nothing
is found. -/
def replace_text_in_image (results : List Frag) (originalText : List Char) : MaskStrategy :=
  match find_text_location results originalText with
  | some b => MaskStrategy.inPlaceFound b
  | none => MaskStrategy.overlay

/-- The caller-facing outcome of one request. -/
structure ProcResult where
  uid : List Char
  masked : List Char
  locationsFound : Nat
  strategy : MaskStrategy
deriving DecidableEq

/-- `api.process_single_image` (lines 169–221): detect the identifier
with all locations (422, modelled `none`, when absent), mask it, then
redact at the detected boxes, or via `replace_text_in_image` when the
resolver returned zero boxes.  `detResults` are the OCR fragments of
the detection pass (preprocessed image), `maskResults` those of the
masking pass (raw image); line 213 reports
`len(bboxes) if bboxes else 0` locations. -/
def process_single_image (detResults maskResults : List Frag) : Option ProcResult :=
  match detectAllLocations detResults with
  | none => none
  | some (n, bboxes) =>
    match mask_aadhaar_number n with
    | none => none
    | some m =>
      some { uid := n
             masked := m
             locationsFound := bboxes.length
             strategy :=
               if bboxes.isEmpty then replace_text_in_image maskResults n
               else MaskStrategy.atAllLocations bboxes }

/-! ## Concrete OCR scenes used as test inputs

`axisQuad x0 y0 x1 y1` is the axis-aligned four-point polygon EasyOCR
would emit for a horizontal text span. -/

/-- Axis-aligned quadrilateral with corners `(x0,y0)` and `(x1,y1)`. -/
def axisQuad (x0 y0 x1 y1 : ℤ) : List (ℤ × ℤ) :=
  [(x0, y0), (x1, y0), (x1, y1), (x0, y1)]

/-- A scene holding one three-part group of the identifier on one text
line and, further down, one single block containing all 12 digits. -/
def sceneGroupAndSingle : List Frag :=
  [ ⟨"1234".toList, Rat.divInt 9 10, axisQuad 0 0 40 10⟩
  , ⟨"5678".toList, Rat.divInt 9 10, axisQuad 50 0 90 10⟩
  , ⟨"9012".toList, Rat.divInt 9 10, axisQuad 100 0 140 10⟩
  , ⟨"123456789012".toList, Rat.divInt 9 10, axisQuad 0 300 200 320⟩ ]

/-- A scene holding two three-part groups of the identifier.  The two
rows' vertical centers are 55 px apart (so neither group absorbs the
other's fragments), but the second row's polygons are tall, putting the
two union boxes' top-left corners only 30 px apart. -/
def sceneTwoGroups : List Frag :=
  [ ⟨"1234".toList, Rat.divInt 9 10, axisQuad 0 0 40 10⟩
  , ⟨"5678".toList, Rat.divInt 9 10, axisQuad 50 0 90 10⟩
  , ⟨"9012".toList, Rat.divInt 9 10, axisQuad 100 0 140 10⟩
  , ⟨"1234".toList, Rat.divInt 9 10, axisQuad 0 30 40 90⟩
  , ⟨"5678".toList, Rat.divInt 9 10, axisQuad 50 30 90 90⟩
  , ⟨"9012".toList, Rat.divInt 9 10, axisQuad 100 30 140 90⟩ ]

/-- A scene where the identifier is split `"1234 5678" / "9012"`, so
extraction succeeds over the joined text but the resolver finds
neither a 4-digit group triple nor a 12-digit single block. -/
def sceneTwoPart : List Frag :=
  [ ⟨"1234 5678".toList, Rat.divInt 9 10, axisQuad 0 0 90 10⟩
  , ⟨"9012".toList, Rat.divInt 9 10, axisQuad 100 0 140 10⟩ ]

/-- The identifier used by the concrete scenes. -/
def sceneUID : List Char := "1234 5678 9012".toList

/-- Its digit string. -/
def sceneDigits : List Char := "123456789012".toList

/-- The location list the claims' Step-A-first reading would produce:
single-fragment candidates first, then group candidates, all
deduplicated against the already accepted boxes. -/
def claimOrderResolve (results : List Frag) (target : List Char) : List Box :=
  dedupAppend (dedupAppend [] (singleCandidates results target)) (method1 results target)

/-! ## Claim C5 — mask formatter validation -/

/-- **C5, counterexample.**  The claim says `mask_aadhaar_number`
raises exactly when the input does not have exactly 12 *digits*.  The
input `"abcdefghijkl"` has no digits at all, yet the formatter accepts
it (the check counts non-space characters, not digits) and returns
`"XXXX XXXX ijkl"`. -/
theorem C5_counterexample :
    mask_aadhaar_number ("abcdefghijkl".toList) = some ("XXXX XXXX ijkl".toList) ∧
      ("abcdefghijkl".toList.filter Char.isDigit).length ≠ 12 := by
  decide

/-- **C5, amended.**  `mask_aadhaar_number` raises the invalid-format
error exactly when the input does not have exactly 12 characters after
removing spaces (digit or not); in particular `"12345"` is rejected. -/
theorem C5_mask_raises_iff :
    mask_aadhaar_number ("12345".toList) = none ∧
    ∀ s : List Char,
      mask_aadhaar_number s = none ↔ (s.filter (fun c => c != ' ')).length ≠ 12 := by
  refine ⟨by decide, fun s => ?_⟩
  by_cases h : (s.filter (fun c => c != ' ')).length = 12
  · have hne : s ≠ [] := by
      intro rfl'
      subst rfl'
      simp at h
    have hemp : s.isEmpty = false := by
      cases s with
      | nil => exact absurd rfl hne
      | cons a t => rfl
    simp [mask_aadhaar_number, hemp, h]
  · have : (s.isEmpty || ((s.filter (fun c => c != ' ')).length != 12)) = true := by
      simp [h]
    simp [mask_aadhaar_number, this, h]

/-! ## Claim C8 — contrast selection -/

/-- **C8.**  `_get_text_color` chooses black exactly when the
luminance `0.299·R + 0.587·G + 0.114·B` of the (BGR-ordered)
background colour exceeds 128, white otherwise; in particular
`(250,250,250)` gives black text and `(10,10,10)` white text. -/
theorem C8_text_color :
    (∀ r g b : ℤ,
      (get_text_color (b, g, r) = (0, 0, 0) ↔
        (128 : ℚ) < (299 / 1000 : ℚ) * r + (587 / 1000 : ℚ) * g + (114 / 1000 : ℚ) * b) ∧
      (get_text_color (b, g, r) = (255, 255, 255) ↔
        ¬ (128 : ℚ) < (299 / 1000 : ℚ) * r + (587 / 1000 : ℚ) * g + (114 / 1000 : ℚ) * b)) ∧
    get_text_color (250, 250, 250) = (0, 0, 0) ∧
    get_text_color (10, 10, 10) = (255, 255, 255) := by
  refine ⟨fun r g b => ⟨?_, ?_⟩, ?_, ?_⟩
  · unfold get_text_color luminance
    split_ifs with h
    · exact iff_of_true rfl h
    · exact iff_of_false (by decide) h
  · unfold get_text_color luminance
    split_ifs with h
    · exact iff_of_false (by decide) (not_not_intro h)
    · exact iff_of_true rfl h
  · unfold get_text_color luminance
    rw [if_pos (by norm_num)]
  · unfold get_text_color luminance
    rw [if_neg (by norm_num)]

/-! ## Claim C10 — masked output depends only on the last four
characters -/

/-- **C10.**  For inputs accepted by the mask formatter (exactly 12
characters after space removal), the output is a function of the last
four de-spaced characters alone: agreeing suffixes force identical
masked strings, so the first eight digits cannot be recovered. -/
theorem C10_mask_last4 (s1 s2 : List Char)
    (h1 : (s1.filter (fun c => c != ' ')).length = 12)
    (h2 : (s2.filter (fun c => c != ' ')).length = 12)
    (hsuf : (s1.filter (fun c => c != ' ')).drop 8 = (s2.filter (fun c => c != ' ')).drop 8) :
    mask_aadhaar_number s1 = mask_aadhaar_number s2 := by
  have hne1 : s1.isEmpty = false := by
    cases s1 with
    | nil => simp at h1
    | cons a t => rfl
  have hne2 : s2.isEmpty = false := by
    cases s2 with
    | nil => simp at h2
    | cons a t => rfl
  simp only [mask_aadhaar_number, hne1, hne2, h1, h2, Bool.false_or]
  norm_num
  rw [hsuf]

/-- **C10, witness.**  Two accepted inputs sharing the suffix `9012`
yield the same masked string. -/
theorem C10_mask_last4_witness :
    ("1234 5678 9012".toList.filter (fun c => c != ' ')).length = 12 ∧
    ("9999 9999 9012".toList.filter (fun c => c != ' ')).length = 12 ∧
    mask_aadhaar_number ("1234 5678 9012".toList) =
      mask_aadhaar_number ("9999 9999 9012".toList) :=
  ⟨by decide, by decide,
    C10_mask_last4 _ _ (by decide) (by decide) (by decide)⟩

/-! ## Claim C7 — round-trip of the mask formatter -/

/-- A digit character is neither the space nor the mask character. -/
theorem digit_notMaskChar {c : Char} (h : c.isDigit = true) :
    (c != ' ' && c != 'X') = true := by
  have h1 : c ≠ ' ' := by rintro rfl; exact absurd h (by decide)
  have h2 : c ≠ 'X' := by rintro rfl; exact absurd h (by decide)
  simp [h1, h2]

/-- A digit character is not the space character. -/
theorem digit_notSpace {c : Char} (h : c.isDigit = true) : (c != ' ') = true := by
  have h1 : c ≠ ' ' := by rintro rfl; exact absurd h (by decide)
  simp [h1]

/-- Unfolding of `format12` applied to the `'X'`-masked string. -/
theorem format12_masked (v : List Char) (hv : v.length = 4) :
    format12 ("XXXXXXXX".toList ++ v) =
      "XXXX".toList ++ ' ' :: ("XXXX".toList ++ ' ' :: v) := by
  have h8 : ("XXXXXXXX".toList : List Char) = "XXXX".toList ++ "XXXX".toList := rfl
  rw [format12, h8, List.append_assoc]
  rw [List.take_left' (by rfl), List.drop_left' (by rfl)]
  rw [List.take_left' (by rfl)]
  rw [show ("XXXX".toList ++ ("XXXX".toList ++ v)).drop 8 = v from by
    rw [← List.append_assoc, ← h8]; exact List.drop_left' (by rfl)]
  rw [List.take_of_length_le (le_of_eq hv)]

/-- **C7.**  For a valid 12-digit identifier (all non-space characters
digits, exactly 12 of them), masking and then deleting all spaces and
all `'X'` characters leaves exactly the last four digits, and the
masked string is its own digit/mask content with group spacing
re-inserted at positions 4 and 8 (i.e. it is `format12` of its
de-spaced content). -/
theorem C7_mask_roundtrip (s : List Char)
    (hall : (s.filter (fun c => c != ' ')).all Char.isDigit = true)
    (hl : (s.filter (fun c => c != ' ')).length = 12) :
    ∃ m, mask_aadhaar_number s = some m ∧
      m.filter (fun c => c != ' ' && c != 'X') = (s.filter (fun c => c != ' ')).drop 8 ∧
      m = format12 (m.filter (fun c => c != ' ')) := by
  have hsne : s.isEmpty = false := by
    cases s with
    | nil => simp at hl
    | cons a t => rfl
  have hmask :
      mask_aadhaar_number s =
        some (format12 ("XXXXXXXX".toList ++ (s.filter (fun c => c != ' ')).drop 8)) := by
    rw [mask_aadhaar_number, if_neg]
    · rfl
    · simp [hsne, hl]
  set v : List Char := (s.filter (fun c => c != ' ')).drop 8 with hvdef
  have hv : v.length = 4 := by
    rw [hvdef, List.length_drop, hl]
  have hvdig : ∀ c ∈ v, c.isDigit = true := by
    intro c hc
    have : c ∈ s.filter (fun c => c != ' ') := List.drop_subset _ _ (hvdef ▸ hc)
    exact (List.all_eq_true.mp hall) c this
  have hfmt := format12_masked v hv
  refine ⟨_, hmask, ?_, ?_⟩
  · rw [hfmt]
    rw [List.filter_append]
    rw [show ("XXXX".toList.filter (fun c => c != ' ' && c != 'X')) = [] from by decide]
    rw [List.nil_append, List.filter_cons_of_neg (by decide), List.filter_append]
    rw [show ("XXXX".toList.filter (fun c => c != ' ' && c != 'X')) = [] from by decide]
    rw [List.nil_append, List.filter_cons_of_neg (by decide)]
    exact List.filter_eq_self.mpr fun a ha => digit_notMaskChar (hvdig a ha)
  · rw [hfmt]
    have hflt :
        ("XXXX".toList ++ ' ' :: ("XXXX".toList ++ ' ' :: v)).filter (fun c => c != ' ') =
          "XXXXXXXX".toList ++ v := by
      rw [List.filter_append]
      rw [show ("XXXX".toList.filter (fun c => c != ' ')) = "XXXX".toList from by decide]
      rw [List.filter_cons_of_neg (by decide), List.filter_append]
      rw [show ("XXXX".toList.filter (fun c => c != ' ')) = "XXXX".toList from by decide]
      rw [List.filter_cons_of_neg (by decide)]
      rw [List.filter_eq_self.mpr fun a ha => digit_notSpace (hvdig a ha)]
      rfl
    rw [hflt, hfmt]

/-- **C7, witness.**  The identifier `"1234 5678 9012"` satisfies the
hypotheses and round-trips to the suffix `"9012"`. -/
theorem C7_mask_roundtrip_witness :
    ("1234 5678 9012".toList.filter (fun c => c != ' ')).all Char.isDigit = true ∧
    ("1234 5678 9012".toList.filter (fun c => c != ' ')).length = 12 ∧
    ∃ m, mask_aadhaar_number ("1234 5678 9012".toList) = some m ∧
      m.filter (fun c => c != ' ' && c != 'X') =
        ("1234 5678 9012".toList.filter (fun c => c != ' ')).drop 8 ∧
      m = format12 (m.filter (fun c => c != ' ')) :=
  ⟨by decide, by decide, C7_mask_roundtrip _ (by decide) (by decide)⟩

/-! ## Claim C9 — partial 8-digit match before the overlay fallback -/

/-- **C9.**  When no fragment of at-least-threshold confidence contains
the full identifier digits, `replace_text_in_image` does not fall back
to the overlay immediately: it redacts in place at the box of the first
at-least-threshold fragment with at least 8 digits containing some
8-consecutive-digit window of the identifier, and draws the bottom
overlay banner only when no such fragment exists either. -/
theorem C9_window_before_overlay (results : List Frag) (targetText : List Char)
    (hfull : ∀ f ∈ results, Rat.divInt 1 2 ≤ f.conf →
        substrIn (targetText.filter Char.isDigit) (digitsOf f) = false) :
    replace_text_in_image results targetText =
      match results.find? (windowMatchB (targetText.filter Char.isDigit)) with
      | some f => MaskStrategy.inPlaceFound (fragBox f)
      | none => MaskStrategy.overlay := by
  have hnone : results.find? (fullMatchB (targetText.filter Char.isDigit)) = none := by
    rw [List.find?_eq_none]
    intro f hf
    unfold fullMatchB
    by_cases hc : f.conf < Rat.divInt 1 2
    · simp [hc]
    · simp [hc, hfull f hf (le_of_not_lt hc)]
  unfold replace_text_in_image find_text_location
  simp only [hnone]
  cases hp : results.find? (windowMatchB (targetText.filter Char.isDigit)) with
  | none => simp [hp]
  | some f => simp [hp]

/-- **C9, witness.**  In the split scene no fragment contains the full
digit string, and the first partial 8-digit match (`"1234 5678"`) is
redacted in place rather than falling back to the overlay. -/
theorem C9_window_before_overlay_witness :
    (∀ f ∈ sceneTwoPart, Rat.divInt 1 2 ≤ f.conf →
        substrIn (sceneUID.filter Char.isDigit) (digitsOf f) = false) ∧
    replace_text_in_image sceneTwoPart sceneUID =
      MaskStrategy.inPlaceFound ⟨0, 0, 90, 10⟩ :=
  ⟨by decide, (C9_window_before_overlay sceneTwoPart sceneUID (by decide)).trans (by decide)⟩

/-! ## Claim C6 — pipeline routing on zero resolved locations -/

/-- Structure of a successful extraction: the result is `format12` of a
12-character all-digit string. -/
theorem extract_eq_some_shape {s n : List Char}
    (h : extract_aadhaar_number s = some n) :
    ∃ d, d.length = 12 ∧ (∀ c ∈ d, c.isDigit = true) ∧ n = format12 d := by
  have core : ∀ {d : List Char} {mss : List (List Char)},
      firstValid mss = some d → d.length = 12 ∧ ∀ c ∈ d, c.isDigit = true := by
    intro d mss hfv
    have hp := List.find?_some hfv
    have hm := List.mem_of_find?_eq_some hfv
    obtain ⟨m, _, rfl⟩ := List.mem_map.mp hm
    exact ⟨by simpa using hp, fun c hc => List.of_mem_filter hc⟩
  simp only [extract_aadhaar_number] at h
  cases h1 : firstValid (pat1Matches (digitRuns (cleanedReplace s))) with
  | some d =>
    rw [h1] at h
    obtain ⟨hl, hd⟩ := core h1
    exact ⟨d, hl, hd, (Option.some_inj.mp h).symm⟩
  | none =>
    rw [h1] at h
    cases h2 : firstValid (pat2Matches (digitRuns (cleanedReplace s))) with
    | some d =>
      rw [h2] at h
      obtain ⟨hl, hd⟩ := core h2
      exact ⟨d, hl, hd, (Option.some_inj.mp h).symm⟩
    | none =>
      rw [h2] at h
      cases h3 : firstValid (pat3Matches (digitRuns (cleanedReplace s))) with
      | some d =>
        rw [h3] at h
        obtain ⟨hl, hd⟩ := core h3
        exact ⟨d, hl, hd, by simpa using h.symm⟩
      | none =>
        rw [h3] at h
        exact absurd h (by simp)

/-- De-spacing a canonically formatted 12-digit string recovers the
digits. -/
theorem filter_format12 {d : List Char} (h12 : d.length = 12)
    (hdig : ∀ c ∈ d, c.isDigit = true) :
    (format12 d).filter (fun c => c != ' ') = d := by
  rw [format12, List.filter_append, List.filter_cons_of_neg (by decide),
    List.filter_append, List.filter_cons_of_neg (by decide)]
  rw [List.filter_eq_self.mpr fun a ha => digit_notSpace (hdig a (List.take_subset _ _ ha))]
  rw [List.filter_eq_self.mpr fun a ha =>
    digit_notSpace (hdig a (List.drop_subset _ _ (List.take_subset _ _ ha)))]
  rw [List.filter_eq_self.mpr fun a ha =>
    digit_notSpace (hdig a (List.drop_subset _ _ (List.take_subset _ _ ha)))]
  rw [show (d.drop 8).take 4 = d.drop 8 from
    List.take_of_length_le (by rw [List.length_drop, h12])]
  rw [show d.drop 8 = (d.drop 4).drop 4 from by rw [List.drop_drop]]
  rw [List.take_append_drop, List.take_append_drop]

/-- The mask formatter accepts a canonically formatted extraction
result and produces the `'X'`-masked, re-spaced string. -/
theorem mask_format12 {d : List Char} (h12 : d.length = 12)
    (hdig : ∀ c ∈ d, c.isDigit = true) :
    mask_aadhaar_number (format12 d) =
      some (format12 ("XXXXXXXX".toList ++ d.drop 8)) := by
  have hflt := filter_format12 h12 hdig
  have hne : (format12 d).isEmpty = false := by
    rw [format12]
    cases h : d.take 4 with
    | nil => rfl
    | cons a t => rfl
  rw [mask_aadhaar_number, if_neg]
  · rw [hflt]
    rfl
  · rw [hflt, hne, h12]
    simp

/-- **C6, counterexample.**  In the split scene the identifier is
extracted and the resolver returns zero locations, yet the pipeline
does *not* draw the overlay banner: the masking step re-finds the text
by its partial 8-digit match and redacts in place. -/
theorem C6_counterexample :
    detectAllLocations sceneTwoPart = some (sceneUID, []) ∧
    process_single_image sceneTwoPart sceneTwoPart =
      some { uid := sceneUID
             masked := "XXXX XXXX 9012".toList
             locationsFound := 0
             strategy := MaskStrategy.inPlaceFound ⟨0, 0, 90, 10⟩ } ∧
    MaskStrategy.inPlaceFound ⟨0, 0, 90, 10⟩ ≠ MaskStrategy.overlay := by
  decide

/-- **C6, amended.**  When the identifier is extracted but the resolver
returns zero locations, the pipeline still succeeds and reports zero
locations found; however, instead of going straight to the overlay
banner it re-searches the masking pass's OCR fragments
(`find_text_location`: full 12-digit containment, then partial 8-digit
windows) and redacts in place at a found box; the overlay banner is
drawn exactly when that second search also finds nothing. -/
theorem C6_zero_locations_route (det maskR : List Frag) (n : List Char)
    (h : detectAllLocations det = some (n, [])) :
    ∃ r, process_single_image det maskR = some r ∧
      r.locationsFound = 0 ∧ r.uid = n ∧
      (r.strategy = MaskStrategy.overlay ↔ find_text_location maskR n = none) ∧
      (∀ b, r.strategy = MaskStrategy.inPlaceFound b ↔
        find_text_location maskR n = some b) := by
  have hsplit : extract_aadhaar_number (joinTexts det) = some n ∧
      resolveLocations det (n.filter (fun c => c != ' ')) = [] := by
    simp only [detectAllLocations] at h
    cases he : extract_aadhaar_number (joinTexts det) with
    | none => rw [he] at h; exact absurd h (by simp)
    | some m =>
      rw [he] at h
      rw [Option.some_inj, Prod.mk.injEq] at h
      obtain ⟨h1, h2⟩ := h
      subst h1
      exact ⟨rfl, h2⟩
  obtain ⟨hext, hres⟩ := hsplit
  obtain ⟨d, h12, hdig, rfl⟩ := extract_eq_some_shape hext
  have hmask := mask_format12 h12 hdig
  refine ⟨{ uid := format12 d
            masked := format12 ("XXXXXXXX".toList ++ d.drop 8)
            locationsFound := 0
            strategy := replace_text_in_image maskR (format12 d) }, ?_, rfl, rfl, ?_, ?_⟩
  · simp only [process_single_image, h, hmask]
    rfl
  · unfold replace_text_in_image
    cases hf : find_text_location maskR (format12 d) with
    | none => simp [hf]
    | some b0 => simp [hf]
  · intro b
    unfold replace_text_in_image
    cases hf : find_text_location maskR (format12 d) with
    | none => simp [hf]
    | some b0 => simp [hf]

/-- **C6, witness.**  The split scene instantiates the amended claim:
the pipeline succeeds with zero locations and, since the partial match
finds a box, redacts in place. -/
theorem C6_zero_locations_route_witness :
    detectAllLocations sceneTwoPart = some (sceneUID, []) ∧
    ∃ r, process_single_image sceneTwoPart sceneTwoPart = some r ∧
      r.locationsFound = 0 ∧ r.uid = sceneUID ∧
      (r.strategy = MaskStrategy.overlay ↔
        find_text_location sceneTwoPart sceneUID = none) ∧
      (∀ b, r.strategy = MaskStrategy.inPlaceFound b ↔
        find_text_location sceneTwoPart sceneUID = some b) :=
  ⟨by decide, C6_zero_locations_route sceneTwoPart sceneTwoPart sceneUID (by decide)⟩

/-! ## Claim C4 — multi-fragment grouping -/

/-- A one-row scene of exactly the three group fragments. -/
def sceneOneRow : List Frag :=
  [ ⟨"1234".toList, Rat.divInt 9 10, axisQuad 0 0 40 10⟩
  , ⟨"5678".toList, Rat.divInt 9 10, axisQuad 50 0 90 10⟩
  , ⟨"9012".toList, Rat.divInt 9 10, axisQuad 100 0 140 10⟩ ]

/-- **C4.**  For a fragment list of exactly three above-threshold
fragments with digit texts `"1234"`, `"5678"`, `"9012"` whose vertical
centers lie pairwise within the 50-pixel tolerance (doubled values
within 100), resolving `"1234 5678 9012"` yields exactly one Location,
the union bounding box of the three polygons.  (No fragment can
contain all 12 digits here, each having exactly four.) -/
theorem C4_three_fragment_union (t0 t1 t2 : List Char) (c0 c1 c2 : ℚ)
    (p0 p1 p2 : List (ℤ × ℤ))
    (hd0 : t0.filter Char.isDigit = "1234".toList)
    (hd1 : t1.filter Char.isDigit = "5678".toList)
    (hd2 : t2.filter Char.isDigit = "9012".toList)
    (hc0 : Rat.divInt 1 2 < c0) (hc1 : Rat.divInt 1 2 < c1) (hc2 : Rat.divInt 1 2 < c2)
    (h01 : (yCenter2 p0 - yCenter2 p1).natAbs < 100)
    (h02 : (yCenter2 p0 - yCenter2 p2).natAbs < 100)
    (h12 : (yCenter2 p1 - yCenter2 p2).natAbs < 100) :
    resolveLocations [⟨t0, c0, p0⟩, ⟨t1, c1, p1⟩, ⟨t2, c2, p2⟩] sceneDigits
      = [unionBox [⟨t0, c0, p0⟩, ⟨t1, c1, p1⟩, ⟨t2, c2, p2⟩]] := by
  have h10 : (yCenter2 p1 - yCenter2 p0).natAbs < 100 := by omega
  have h20 : (yCenter2 p2 - yCenter2 p0).natAbs < 100 := by omega
  have h21 : (yCenter2 p2 - yCenter2 p1).natAbs < 100 := by omega
  have hg0 : groupCandidate sceneDigits ⟨t0, c0, p0⟩ = true := by
    simp only [groupCandidate, digitsOf]
    rw [hd0, decide_eq_true hc0]
    decide
  have hg1 : groupCandidate sceneDigits ⟨t1, c1, p1⟩ = true := by
    simp only [groupCandidate, digitsOf]
    rw [hd1, decide_eq_true hc1]
    decide
  have hg2 : groupCandidate sceneDigits ⟨t2, c2, p2⟩ = true := by
    simp only [groupCandidate, digitsOf]
    rw [hd2, decide_eq_true hc2]
    decide
  have hs01 : sameLineB p0 p1 = true := by unfold sameLineB; exact decide_eq_true h01
  have hs02 : sameLineB p0 p2 = true := by unfold sameLineB; exact decide_eq_true h02
  have hs10 : sameLineB p1 p0 = true := by unfold sameLineB; exact decide_eq_true h10
  have hs12 : sameLineB p1 p2 = true := by unfold sameLineB; exact decide_eq_true h12
  have hs20 : sameLineB p2 p0 = true := by unfold sameLineB; exact decide_eq_true h20
  have hs21 : sameLineB p2 p1 = true := by unfold sameLineB; exact decide_eq_true h21
  have hsc0 : singleCandidateB sceneDigits ⟨t0, c0, p0⟩ = false := by
    simp only [singleCandidateB, digitsOf, hd0]
    rw [show substrIn sceneDigits ("1234".toList) = false from by decide]
    simp
  have hsc1 : singleCandidateB sceneDigits ⟨t1, c1, p1⟩ = false := by
    simp only [singleCandidateB, digitsOf, hd1]
    rw [show substrIn sceneDigits ("5678".toList) = false from by decide]
    simp
  have hsc2 : singleCandidateB sceneDigits ⟨t2, c2, p2⟩ = false := by
    simp only [singleCandidateB, digitsOf, hd2]
    rw [show substrIn sceneDigits ("9012".toList) = false from by decide]
    simp
  have hgf0 : groupFor [⟨t0, c0, p0⟩, ⟨t1, c1, p1⟩, ⟨t2, c2, p2⟩] sceneDigits 0 ⟨t0, c0, p0⟩
      = [⟨t0, c0, p0⟩, ⟨t1, c1, p1⟩, ⟨t2, c2, p2⟩] := by
    unfold groupFor
    simp only [enumFrom, List.filter_cons, List.filter_nil, hg0, hg1, hg2,
      hs01, hs02, hs10, hs12, hs20, hs21]
    simp
  have hgf1 : groupFor [⟨t0, c0, p0⟩, ⟨t1, c1, p1⟩, ⟨t2, c2, p2⟩] sceneDigits 1 ⟨t1, c1, p1⟩
      = [⟨t1, c1, p1⟩, ⟨t0, c0, p0⟩, ⟨t2, c2, p2⟩] := by
    unfold groupFor
    simp only [enumFrom, List.filter_cons, List.filter_nil, hg0, hg1, hg2,
      hs01, hs02, hs10, hs12, hs20, hs21]
    simp
  have hgf2 : groupFor [⟨t0, c0, p0⟩, ⟨t1, c1, p1⟩, ⟨t2, c2, p2⟩] sceneDigits 2 ⟨t2, c2, p2⟩
      = [⟨t2, c2, p2⟩, ⟨t0, c0, p0⟩, ⟨t1, c1, p1⟩] := by
    unfold groupFor
    simp only [enumFrom, List.filter_cons, List.filter_nil, hg0, hg1, hg2,
      hs01, hs02, hs10, hs12, hs20, hs21]
    simp
  have hm1 : method1 [⟨t0, c0, p0⟩, ⟨t1, c1, p1⟩, ⟨t2, c2, p2⟩] sceneDigits
      = [unionBox [⟨t0, c0, p0⟩, ⟨t1, c1, p1⟩, ⟨t2, c2, p2⟩]] := by
    unfold method1
    simp only [enumFrom, List.filterMap_cons, List.filterMap_nil, hg0, hg1, hg2,
      hgf0, hgf1, hgf2, if_true]
    simp only [digitsOf, List.map_cons, List.map_nil, hd0, hd1, hd2]
    have e0 : (['1','2','3','4','5','6','7','8','9','0','1','2'] : List Char) = sceneDigits := by
      decide
    have e1 : (['5','6','7','8','1','2','3','4','9','0','1','2'] : List Char) ≠ sceneDigits := by
      decide
    have e2 : (['9','0','1','2','1','2','3','4','5','6','7','8'] : List Char) ≠ sceneDigits := by
      decide
    simp [e0, e1, e2]
  unfold resolveLocations
  simp only [List.foldl_cons, List.foldl_nil, hsc0, hsc1, hsc2, Bool.false_eq_true, if_false]
  exact hm1

/-- **C4, witness.**  The concrete one-row scene instantiates every
hypothesis and resolves to its single union box. -/
theorem C4_three_fragment_union_witness :
    ("1234".toList.filter Char.isDigit = "1234".toList) ∧
    (Rat.divInt 1 2 < Rat.divInt 9 10) ∧
    ((yCenter2 (axisQuad 0 0 40 10) - yCenter2 (axisQuad 50 0 90 10)).natAbs < 100) ∧
    resolveLocations sceneOneRow sceneDigits = [unionBox sceneOneRow] :=
  ⟨by decide, by decide, by decide,
    C4_three_fragment_union ("1234".toList) ("5678".toList) ("9012".toList)
      (Rat.divInt 9 10) (Rat.divInt 9 10) (Rat.divInt 9 10)
      (axisQuad 0 0 40 10) (axisQuad 50 0 90 10) (axisQuad 100 0 140 10)
      (by decide) (by decide) (by decide) (by decide) (by decide) (by decide)
      (by decide) (by decide) (by decide)⟩

/-! ## Claims C1 and C2 — discovery order and the deduplication
invariant -/

/-- The Method-2 fold is the dedup fold over the pre-filtered candidate
boxes. -/
theorem resolve_as_dedupAppend (results : List Frag) (target : List Char) :
    resolveLocations results target =
      dedupAppend (method1 results target) (singleCandidates results target) := by
  unfold resolveLocations dedupAppend singleCandidates
  generalize method1 results target = init
  induction results generalizing init with
  | nil => rfl
  | cons f fs ih =>
    by_cases hc : singleCandidateB target f = true
    · simp only [List.foldl_cons, List.filter_cons, hc, if_true, List.map_cons]
      exact ih (method2Step init (fragBox f))
    · simp only [List.foldl_cons, List.filter_cons, hc, Bool.false_eq_true, if_false]
      exact ih init

/-- A dedup fold appends exactly its accepted boxes. -/
theorem dedupAppend_eq_accepted (cands : List Box) :
    ∀ acc : List Box, dedupAppend acc cands = acc ++ dedupAccepted acc cands := by
  induction cands with
  | nil => intro acc; simp [dedupAppend, dedupAccepted]
  | cons b bs ih =>
    intro acc
    by_cases hd : isDup b acc = true
    · have h1 : dedupAppend acc (b :: bs) = dedupAppend acc bs := by
        simp [dedupAppend, method2Step, hd]
      rw [h1, ih acc]
      simp [dedupAccepted, hd]
    · have h1 : dedupAppend acc (b :: bs) = dedupAppend (acc ++ [b]) bs := by
        simp [dedupAppend, method2Step, hd]
      rw [h1, ih (acc ++ [b])]
      simp [dedupAccepted, hd]

/-- Every box accepted by a dedup fold is outside the tolerance of the
initial accumulator and of every previously accepted box. -/
theorem dedupAccepted_separated (cands : List Box) :
    ∀ (acc : List Box) (j : Nat) (bj e : Box),
      (dedupAccepted acc cands).get? j = some bj →
      e ∈ acc ++ (dedupAccepted acc cands).take j →
      ¬ within50 bj e := by
  induction cands with
  | nil => intro acc j bj e hg he; simp [dedupAccepted] at hg
  | cons b bs ih =>
    intro acc j bj e hg he
    by_cases hd : isDup b acc = true
    · rw [show dedupAccepted acc (b :: bs) = dedupAccepted acc bs from by
        simp [dedupAccepted, hd]] at hg he
      exact ih acc j bj e hg he
    · rw [show dedupAccepted acc (b :: bs) = b :: dedupAccepted (acc ++ [b]) bs from by
        simp [dedupAccepted, hd]] at hg he
      cases j with
      | zero =>
        rw [List.get?_cons_zero, Option.some_inj] at hg
        rw [List.take_zero, List.append_nil] at he
        subst hg
        have hall := List.any_eq_false.mp (Bool.not_eq_true _ ▸ hd)
        intro hw
        exact absurd (decide_eq_true hw) (by simpa using hall e he)
      | succ j =>
        rw [List.get?_cons_succ] at hg
        rw [List.take_succ_cons, List.append_cons] at he
        exact ih (acc ++ [b]) j bj e hg he

/-- **C1, counterexample.**  In the group-plus-single scene the code
returns the multi-fragment (Step B) box *before* the single-fragment
(Step A) box: the resolver's list starts with the union box of the
group, while the Step-A-first order demanded by the claim would start
with the single block's box. -/
theorem C1_counterexample :
    detectAllLocations sceneGroupAndSingle =
      some (sceneUID, [⟨0, 0, 140, 10⟩, ⟨0, 300, 200, 20⟩]) ∧
    method1 sceneGroupAndSingle sceneDigits = [⟨0, 0, 140, 10⟩] ∧
    singleCandidates sceneGroupAndSingle sceneDigits = [⟨0, 300, 200, 20⟩] ∧
    claimOrderResolve sceneGroupAndSingle sceneDigits =
      [⟨0, 300, 200, 20⟩, ⟨0, 0, 140, 10⟩] ∧
    resolveLocations sceneGroupAndSingle sceneDigits ≠
      claimOrderResolve sceneGroupAndSingle sceneDigits := by
  decide

/-- **C1, amended.**  The resolver returns multi-fragment (Method 1)
boxes first, in fragment order, followed by exactly those
single-fragment (Method 2) boxes that survive deduplication against
all earlier-collected boxes; earlier-found boxes win, and only Method-2
boxes are deduplicated. -/
theorem C1_discovery_order (results : List Frag) (target : List Char) :
    resolveLocations results target =
      method1 results target ++
        dedupAccepted (method1 results target) (singleCandidates results target) := by
  rw [resolve_as_dedupAppend, dedupAppend_eq_accepted]

/-- **C2, counterexample.**  In the two-group scene the resolver
returns two distinct boxes whose top-left corners are 30 pixels apart
(inside the 50-pixel tolerance under the code's own per-coordinate
test and under Euclidean distance alike): group boxes are never
deduplicated against each other. -/
theorem C2_counterexample :
    detectAllLocations sceneTwoGroups =
      some (sceneUID, [⟨0, 0, 140, 10⟩, ⟨0, 30, 140, 60⟩]) ∧
    (⟨0, 0, 140, 10⟩ : Box) ≠ ⟨0, 30, 140, 60⟩ ∧
    within50 ⟨0, 0, 140, 10⟩ ⟨0, 30, 140, 60⟩ ∧
    ((⟨0, 0, 140, 10⟩ : Box).x - (⟨0, 30, 140, 60⟩ : Box).x) *
        ((⟨0, 0, 140, 10⟩ : Box).x - (⟨0, 30, 140, 60⟩ : Box).x) +
      ((⟨0, 0, 140, 10⟩ : Box).y - (⟨0, 30, 140, 60⟩ : Box).y) *
        ((⟨0, 0, 140, 10⟩ : Box).y - (⟨0, 30, 140, 60⟩ : Box).y) < 50 * 50 := by
  decide

/-- **C2, amended.**  The separation invariant holds only against
Method-2 boxes: the resolver's list is the Method-1 boxes followed by
the accepted Method-2 boxes, and each accepted Method-2 box is outside
the 50-pixel per-coordinate tolerance of every Method-1 box and of
every earlier-accepted Method-2 box; pairs of Method-1 boxes may lie
arbitrarily close. -/
theorem C2_dedup_invariant (results : List Frag) (target : List Char) :
    resolveLocations results target =
      method1 results target ++
        dedupAccepted (method1 results target) (singleCandidates results target) ∧
    ∀ (j : Nat) (bj e : Box),
      (dedupAccepted (method1 results target)
          (singleCandidates results target)).get? j = some bj →
      e ∈ method1 results target ++
          (dedupAccepted (method1 results target)
            (singleCandidates results target)).take j →
      ¬ within50 bj e := by
  refine ⟨by rw [resolve_as_dedupAppend, dedupAppend_eq_accepted], ?_⟩
  intro j bj e hg he
  exact dedupAccepted_separated _ _ j bj e hg he

/-- **C2, witness.**  In the group-plus-single scene the accepted
single-fragment box is outside the tolerance of the group box. -/
theorem C2_dedup_invariant_witness :
    (dedupAccepted (method1 sceneGroupAndSingle sceneDigits)
        (singleCandidates sceneGroupAndSingle sceneDigits)).get? 0 =
      some ⟨0, 300, 200, 20⟩ ∧
    ¬ within50 ⟨0, 300, 200, 20⟩ ⟨0, 0, 140, 10⟩ :=
  ⟨by decide,
    (C2_dedup_invariant sceneGroupAndSingle sceneDigits).2 0 _ _ (by decide) (by decide)⟩

/-! ## Claim C3 — the extractor pipeline -/

/-- The recursive pattern-2 scan coincides with the declarative
windows-of-three-4-runs description. -/
theorem pat2_eq_spec : ∀ rs : List (List Char), pat2Matches rs = specPat2 rs := by
  intro rs
  induction rs with
  | nil => rfl
  | cons a rs ih =>
    rcases rs with _ | ⟨b, rs⟩
    · rfl
    rcases rs with _ | ⟨c, rs⟩
    · rfl
    simp only [pat2Matches, specPat2, List.tails_cons, List.filterMap_cons] at ih ⊢
    by_cases hcond : a.length = 4 ∧ b.length = 4 ∧ c.length = 4
    · simp only [hcond, and_self, if_true, ih]
      simp
    · simp only [hcond, if_false, ih]
      simp


/-- The chunk-consuming pattern-3 engine started with 12 digits to
consume coincides with the declarative run-decomposition description
(`12`, `4+8`, `8+4` or `4+4+4`). -/
theorem win12_twelve_eq_specWin : ∀ ls : List (List Char), win12 ls 12 = specWin ls := by
  intro ls
  rcases ls with _ | ⟨a, rest⟩
  · rfl
  have hcases : a.length % 4 = 0 ∧ 0 < a.length ∧ a.length ≤ 12 →
      a.length = 4 ∨ a.length = 8 ∨ a.length = 12 := by omega
  by_cases h12 : a.length = 12
  · show win12 (a :: rest) 12 = specWin (a :: rest)
    rw [win12, if_pos ⟨by omega, by omega, by omega⟩, h12]
    simp [specWin, h12, win12]
  by_cases h4 : a.length = 4
  · rw [win12, if_pos ⟨by omega, by omega, by omega⟩, h4]
    rcases rest with _ | ⟨b, rest2⟩
    · simp [win12, specWin, h12, h4]
    by_cases hb8 : b.length = 8
    · rw [show (12 : Nat) - 4 = 8 from rfl]
      rw [win12, if_pos ⟨by omega, by omega, by omega⟩, hb8]
      simp [win12, specWin, h12, h4, hb8]
    by_cases hb4 : b.length = 4
    · rw [show (12 : Nat) - 4 = 8 from rfl]
      rw [win12, if_pos ⟨by omega, by omega, by omega⟩, hb4]
      rcases rest2 with _ | ⟨c, rest3⟩
      · simp [win12, specWin, h12, h4, hb8, hb4]
      by_cases hc4 : c.length = 4
      · rw [show (8 : Nat) - 4 = 4 from rfl]
        rw [win12, if_pos ⟨by omega, by omega, by omega⟩, hc4]
        simp [win12, specWin, h12, h4, hb8, hb4, hc4]
      · rw [show (8 : Nat) - 4 = 4 from rfl]
        rw [win12, if_neg (by omega)]
        simp [specWin, h12, h4, hb8, hb4, hc4]
    · rw [show (12 : Nat) - 4 = 8 from rfl]
      rw [win12, if_neg (by omega)]
      rcases rest2 with _ | ⟨c, rest3⟩
      · simp [specWin, h12, h4, hb8, hb4]
      · simp [specWin, h12, h4, hb8, hb4]
  by_cases h8 : a.length = 8
  · rw [win12, if_pos ⟨by omega, by omega, by omega⟩, h8]
    rcases rest with _ | ⟨b, rest2⟩
    · simp [win12, specWin, h12, h4, h8]
    by_cases hb4 : b.length = 4
    · rw [show (12 : Nat) - 8 = 4 from rfl]
      rw [win12, if_pos ⟨by omega, by omega, by omega⟩, hb4]
      simp [win12, specWin, h12, h4, h8, hb4]
    · rw [show (12 : Nat) - 8 = 4 from rfl]
      rw [win12, if_neg (by omega)]
      rcases rest2 with _ | ⟨c, rest3⟩
      · simp [specWin, h12, h4, h8, hb4]
      · simp [specWin, h12, h4, h8, hb4]
  · rw [win12, if_neg (by omega)]
    rcases rest with _ | ⟨b, rest2⟩
    · simp [specWin, h12, h4, h8]
    rcases rest2 with _ | ⟨c, rest3⟩
    · simp [specWin, h12, h4, h8]
    · simp [specWin, h12, h4, h8]


/-- The pattern-3 scan coincides with its declarative description. -/
theorem pat3_eq_spec : ∀ rs : List (List Char), pat3Matches rs = specPat3 rs := by
  intro rs
  induction rs with
  | nil => rfl
  | cons r rest ih =>
    simp only [pat3Matches, specPat3, List.tails_cons, List.filterMap_cons] at ih ⊢
    rw [win12_twelve_eq_specWin]
    cases h : specWin (r :: rest) with
    | none => simp [h, ih]
    | some d => simp [h, ih]


/-- **C3, counterexample.**  The claim describes the cleaning step as
*stripping* non-digit, non-whitespace characters.  On
`"12345678901a2"` stripping the `'a'` merges the digits into one
12-digit run, so the claimed algorithm extracts `"1234 5678 9012"`,
but the code *replaces* the `'a'` with a space, leaving runs of 11 and
1 digits, and extracts nothing. -/
theorem C3_counterexample :
    extract_aadhaar_number ("12345678901a2".toList) = none ∧
    extractClaimC3 ("12345678901a2".toList) = some ("1234 5678 9012".toList) := by
  decide

/-- **C3, amended.**  With the cleaning step amended to *replacing*
each non-digit, non-whitespace character by a space, the extractor is
exactly the claimed pipeline: try pattern (1) twelve contiguous
digits, then (2) three 4-digit groups separated by whitespace, then
(3) three 4-digit groups with zero-or-more spaces, accepting the first
match in pattern order whose digit-only length is exactly 12, and
returning the typed empty result otherwise (the function is total, so
no error can escape). -/
theorem C3_amended_eq (s : List Char) :
    extract_aadhaar_number s = extractSpecReplace s := by
  simp only [extract_aadhaar_number, extractSpecReplace, extractSpecOn, specFirstCandidate,
    firstValid]
  rw [← pat2_eq_spec, ← pat3_eq_spec]
  rw [List.map_append, List.map_append, List.find?_append, List.find?_append]
  cases h1 : (List.map (fun m => m.filter Char.isDigit)
      (pat1Matches (digitRuns (cleanedReplace s)))).find? (fun d => d.length == 12) with
  | some d => simp [h1]
  | none =>
    cases h2 : (List.map (fun m => m.filter Char.isDigit)
        (pat2Matches (digitRuns (cleanedReplace s)))).find? (fun d => d.length == 12) with
    | some d => simp [h1, h2]
    | none => simp [h1, h2]
